import Mathlib

/-!
Verification of the weather-dashboard backend and frontend helpers.

This file gives a shallow embedding of the relevant parts of the
repository (backend `server.js` in both of its revisions, the frontend
`helpers.js` in both of its revisions, and the hourly time-window
selection of `HourlyForecastCard.jsx`) and proves or refutes the stated
properties about them.

Conventions of the embedding:
- JSON string values are Lean `String`; numeric JSON tokens that the code
  only ever interpolates into strings (latitude/longitude of a geometry)
  are kept as their string tokens.
- A JavaScript value that may be `undefined`/`null` is an `Option`.
- JavaScript truthiness on strings ("" is falsy) and on numbers (0 is
  falsy) is modelled explicitly at each use site.
- Stateful code (the memoization caches, the response cache) is modelled
  by explicit state passing over association lists.
-/

/-- JavaScript `a || b` on possibly-undefined strings: the empty string and
`undefined` are falsy. -/
def jsOr (a b : Option String) : Option String :=
  match a with
  | some s => if s = "" then b else some s
  | none => b

/-- JavaScript `v || d` producing a string, where `v` may be undefined and
the empty string is falsy. -/
def jsOrStr (v : Option String) (d : String) : String :=
  match v with
  | some s => if s = "" then d else s
  | none => d

/-- JavaScript `v || d` producing a number, where `v` may be undefined and
`0` is falsy. -/
def jsOrNat (v : Option Nat) (d : Nat) : Nat :=
  match v with
  | some n => if n = 0 then d else n
  | none => d

/-- Association-list lookup with decidable key equality, used to model
JavaScript object property lookup. -/
def alookup {α β : Type} [DecidableEq α] : List (α × β) → α → Option β
  | [], _ => none
  | p :: ps, k => if p.1 = k then some p.2 else alookup ps k

/-! ## Geocoding data model (server.js, geocode handler) -/

/-- Per-result timezone annotation of an OpenCage raw item
(`item.annotations.timezone`). -/
structure TzAnnot where
  name : Option String
deriving DecidableEq, Repr

/-- Annotations object of an OpenCage raw item (`item.annotations`). -/
structure Annot where
  timezone : Option TzAnnot
  flag : Option String
deriving DecidableEq, Repr

/-- Components object of an OpenCage raw item (`item.components`). -/
structure Components where
  city : Option String
  town : Option String
  village : Option String
  hamlet : Option String
  state : Option String
  province : Option String
  county : Option String
  country : Option String
deriving DecidableEq, Repr

/-- Geometry of an OpenCage raw item; the code only interpolates `lat` and
`lng` into strings, so they are kept as their JSON tokens. -/
structure Geometry where
  lat : String
  lng : String
deriving DecidableEq, Repr

/-- A raw result record from the geocoding provider. -/
structure RawItem where
  formatted : String
  components : Option Components
  annot : Option Annot
  geometry : Geometry
deriving DecidableEq, Repr

/-- The empty components object used for `item.components || {}`. -/
def emptyComponents : Components :=
  ⟨none, none, none, none, none, none, none, none⟩

/-- The mapped record shape returned by GET /api/geocode. -/
structure GeocodeResult where
  formatted : String
  city : Option String
  state : Option String
  county : Option String
  country : Option String
  timezone : String
  geometry : Geometry
  flag : Option String
deriving DecidableEq, Repr

/-- Timezone extraction of the geocode map: the truthiness chain
`item.annotations && item.annotations.timezone &&
item.annotations.timezone.name`; `some n` exactly when the chain is
truthy. -/
def tzName (item : RawItem) : Option String :=
  match item.annot with
  | some a =>
    match a.timezone with
    | some t =>
      match t.name with
      | some n => if n = "" then none else some n
      | none => none
    | none => none
  | none => none

/-- Flag extraction of the geocode map:
`item.annotations && item.annotations.flag ? item.annotations.flag : null`. -/
def flagOf (item : RawItem) : Option String :=
  match item.annot with
  | some a =>
    match a.flag with
    | some f => if f = "" then none else some f
    | none => none
  | none => none

/-- The per-item mapping of the geocode handler (identical in both server
revisions), paired with whether the missing-timezone diagnostic
(`console.error` in the else branch) was emitted. -/
def mapItemLog (item : RawItem) : GeocodeResult × Bool :=
  let c := match item.components with
    | some c => c
    | none => emptyComponents
  let tzn := tzName item
  ({ formatted := item.formatted
     city := jsOr c.city (jsOr c.town (jsOr c.village c.hamlet))
     state := jsOr c.state c.province
     county := c.county
     country := c.country
     timezone := jsOrStr tzn ""
     geometry := item.geometry
     flag := flagOf item },
   tzn.isNone)

/-- The mapped record of one raw provider item. -/
def mapItem (item : RawItem) : GeocodeResult := (mapItemLog item).1

/-- Whether the geocode map logged the missing-timezone diagnostic for
this item. -/
def tzDiagLogged (item : RawItem) : Bool := (mapItemLog item).2

/-- The deduplication identity string of the geocode handler:
formatted, latitude and longitude joined with a vertical bar. -/
def identifier (r : GeocodeResult) : String :=
  r.formatted ++ "|" ++ r.geometry.lat ++ "|" ++ r.geometry.lng

/-- The deduplication loop of the geocode handler, with the `seen` set of
already-pushed identifiers made explicit. -/
def uniqueResultsAux (seen : List String) : List GeocodeResult → List GeocodeResult
  | [] => []
  | x :: xs =>
    if identifier x ∈ seen then uniqueResultsAux seen xs
    else x :: uniqueResultsAux (identifier x :: seen) xs

/-- Deduplicated geocode results (`uniqueResults` in server.js): keeps the
first occurrence of each identifier, in input order. -/
def uniqueResults (l : List GeocodeResult) : List GeocodeResult :=
  uniqueResultsAux [] l

/-- The first element of a list whose identifier equals `s`. -/
def firstWithId (s : String) : List GeocodeResult → Option GeocodeResult
  | [] => none
  | x :: xs => if identifier x = s then some x else firstWithId s xs

/-- The body of a geocoding provider response: the `results` field may be
missing or be a list of raw items. -/
inductive UpstreamGeo where
  | missing : UpstreamGeo
  | results : List RawItem → UpstreamGeo
deriving DecidableEq

/-- The success path of the geocode handler (identical in both server
revisions): on a missing or empty provider result list respond 200 with
an empty list, otherwise map and deduplicate; the HTTP status is the
first component. -/
def geocodeHandle : UpstreamGeo → Nat × List GeocodeResult
  | .missing => (200, [])
  | .results items =>
    if items.length = 0 then (200, [])
    else (200, uniqueResults (items.map mapItem))

/-! ## Error normalization (server.js, both revisions) -/

/-- The `error.response` object attached by axios to a non-2xx upstream
response: its HTTP status and `data.error` message field. -/
structure AxiosResp where
  status : Nat
  errorMsg : Option String
deriving DecidableEq, Repr

/-- An error object reaching a catch block or the central error handler:
optional `status` and `message` fields, the axios marker, and the
optional axios `response`. -/
structure HandlerError where
  status : Option Nat
  message : Option String
  isAxiosError : Bool
  response : Option AxiosResp
deriving DecidableEq, Repr

/-- The catch-block status of the first server revision (identical in the
unsplash, geocode and weather handlers): 429 when the upstream response
status is 429, otherwise 500. -/
def catchStatusV1 (e : HandlerError) : Nat :=
  match e.response with
  | some r => if r.status = 429 then 429 else 500
  | none => 500

/-- The status selected by the centralized `errorHandler` of the second
server revision: `err.status || 500`, overridden by the upstream status
`err.response.status` when the error is an axios error with a response. -/
def errorHandlerStatus (e : HandlerError) : Nat :=
  let base := jsOrNat e.status 500
  match e.response with
  | some r => if e.isAxiosError then r.status else base
  | none => base

/-- The message selected by the centralized `errorHandler` of the second
server revision. -/
def errorHandlerMessage (e : HandlerError) : String :=
  let base := jsOrStr e.message "Internal Server Error"
  match e.response with
  | some r =>
    if e.isAxiosError then
      jsOrStr r.errorMsg ("Error from external API: " ++ toString r.status)
    else base
  | none => base

/-! ## Cache keys (server.js, both revisions) -/

/-- The unsplash cache key of the first server revision. -/
def cacheKeyUnsplashV1 (q : String) : String := "unsplash:" ++ q

/-- The geocode cache key of the first server revision. -/
def cacheKeyGeocodeV1 (q : String) : String := "geocode:" ++ q

/-- The weather cache key of the first server revision:
endpoint, latitude, longitude and timezone joined with colons. -/
def cacheKeyWeatherV1 (lat lon tz : String) : String :=
  "weather:" ++ lat ++ ":" ++ lon ++ ":" ++ tz

/-- The request data the `cacheMiddleware` of the second server revision
reads: the route path and the query parameters it interpolates. -/
structure MiddlewareReq where
  path : String
  query : Option String
  latitude : Option String
  longitude : Option String
  timezone : Option String
deriving DecidableEq, Repr

/-- JavaScript template interpolation of a possibly-undefined string. -/
def jsUndefStr : Option String → String
  | some s => s
  | none => "undefined"

/-- The cache key computed by `cacheMiddleware` in the second server
revision: the path, then `req.query.query` when truthy, otherwise
`latitude:longitude`; the timezone parameter is not read. -/
def cacheMiddlewareKey (r : MiddlewareReq) : String :=
  r.path ++ ":" ++
    jsOrStr r.query (jsUndefStr r.latitude ++ ":" ++ jsUndefStr r.longitude)

/-! ## Response cache (C1) -/

/-- Modelled from the spec: the bounded TTL response cache. The cache
implementation itself is the node-cache dependency, configured in
server.js as `stdTTL: 300, checkperiod: 120, maxKeys: 100` but not part
of the repository sources; the operations below follow the spec contract:
`get` never returns an entry after insertion + TTL has elapsed, `set`
stores with the configured TTL and evicts the oldest entry when the
maximum entry count would be exceeded, `clear` removes all entries. A
cache entry records its key, value and insertion time. -/
structure CacheEntry (V : Type) where
  key : String
  value : V
  insertedAt : Nat
deriving DecidableEq, Repr

/-- Modelled from the spec: cache state. Entries are kept oldest first;
`ttl` and `maxKeys` are the configured values. -/
structure SpecCache (V : Type) where
  entries : List (CacheEntry V)
  ttl : Nat
  maxKeys : Nat
deriving Repr

/-- Modelled from the spec: the cache as configured in server.js,
initially empty with a five-minute TTL and at most 100 keys. -/
def serverCache (V : Type) : SpecCache V := ⟨[], 300, 100⟩

/-- Modelled from the spec: `get(key)` at time `now` returns the stored
value only while `now` is at most insertion + TTL. -/
def SpecCache.get {V : Type} (c : SpecCache V) (now : Nat) (k : String) : Option V :=
  match c.entries.find? (fun e => e.key = k) with
  | some e => if now ≤ e.insertedAt + c.ttl then some e.value else none
  | none => none

/-- Modelled from the spec: `set(key, value)` at time `now` replaces any
entry with the same key, and when the entry count would exceed the
maximum, evicts the oldest (head) entry first. -/
def SpecCache.set {V : Type} (c : SpecCache V) (now : Nat) (k : String) (v : V) :
    SpecCache V :=
  let pruned := c.entries.filter (fun e => e.key ≠ k)
  let room := if c.maxKeys ≤ pruned.length then pruned.tail else pruned
  { c with entries := room ++ [⟨k, v, now⟩] }

/-- Modelled from the spec: `clear()` removes all entries. -/
def SpecCache.clear {V : Type} (c : SpecCache V) : SpecCache V :=
  { c with entries := [] }

/-! ## Validation gate (C6) -/

/-- Per-field validation results: each field name paired with whether its
validator chain passed on the request. -/
def fieldErrors (checks : List (String × Bool)) : List String :=
  (checks.filter (fun c => !c.2)).map (fun c => c.1)

/-- The geocode validator chain from server.js:
`query("query").isString().isLength({ min: 2 })` — the field passes only
when the parameter is present and at least 2 characters long. -/
def geocodeChecks (q : Option String) : List (String × Bool) :=
  [("query", match q with
    | some s => decide (2 ≤ s.length)
    | none => false)]

/-- The weather validator chain from server.js: latitude and longitude
must parse as floats and timezone must be a nonempty string; the float
checks are abstracted as the booleans computed by the validator
dependency. -/
def weatherChecks (latOk lonOk : Bool) (tz : Option String) : List (String × Bool) :=
  [("latitude", latOk), ("longitude", lonOk),
   ("timezone", match tz with
    | some s => decide (s ≠ "")
    | none => false)]

/-- Outcome of running the validation gate in front of a handler: the
response status, the list of failed fields reported, and whether control
reached the handler (hence whether an upstream call could happen). -/
structure PipelineOutcome where
  status : Nat
  errorFields : List String
  upstreamCalled : Bool
deriving DecidableEq, Repr

/-- The `handleValidationErrors` middleware of server.js composed with a
handler: when any validator failed, respond 400 with every failed field
and do not call the handler; otherwise run the handler (abstracted as the
status it produces after its upstream call). -/
def runValidated (checks : List (String × Bool)) (handlerStatus : Nat) :
    PipelineOutcome :=
  let errs := fieldErrors checks
  if errs.isEmpty then ⟨handlerStatus, [], true⟩
  else ⟨400, errs, false⟩

/-- The geocode endpoint validation pipeline of server.js. -/
def geocodePipeline (q : Option String) (handlerStatus : Nat) : PipelineOutcome :=
  runValidated (geocodeChecks q) handlerStatus

/-! ## Hourly time-window selection (C8, HourlyForecastCard.jsx) -/

/-- Timestamps are minutes; two datetimes agree on year, month, day and
hour exactly when they fall in the same hour bucket `t / 60`. The scan of
HourlyForecastCard returns the position of the first entry whose local
hour fields all equal those of the current local time. -/
def hourMatchIdx (nowMin : Nat) : List Nat → Option Nat
  | [] => none
  | t :: ts =>
    if t / 60 = nowMin / 60 then some 0
    else (hourMatchIdx nowMin ts).map (fun i => i + 1)

/-- The `startIndex` computation of HourlyForecastCard.jsx: one past the
entry matching the current local hour, or 0 when no entry matches. -/
def hourlyStartIndex (nowMin : Nat) (times : List Nat) : Nat :=
  match hourMatchIdx nowMin times with
  | some i => i + 1
  | none => 0

/-- The choices offered by the hours dropdown of HourlyForecastCard.jsx. -/
def numHoursOptions : List Nat := [12, 18, 24, 30, 36, 42, 48]

/-- The displayed window of HourlyForecastCard.jsx: `numHours` entries of
the time array starting at `startIndex`. -/
def hourlyWindow (nowMin : Nat) (times : List Nat) (numHours : Nat) : List Nat :=
  (times.drop (hourlyStartIndex nowMin times)).take numHours

/-- Consecutive hour-aligned forecast timestamps: `n` entries starting at
hour number `b` (an abstraction of the hourly arrays the forecast
provider returns). -/
def mkTimes (b : Nat) : Nat → List Nat
  | 0 => []
  | n + 1 => b * 60 :: mkTimes (b + 1) n

/-! ## Weather code tables (helpers.js, both revisions) -/

/-- The weather-code description table; the same literal object appears in
both revisions of helpers.js (inline in the first, module level in the
second). -/
def descTable : List (Nat × String) :=
  [(0, "Clear sky"), (1, "Mainly clear"), (2, "Partly cloudy"), (3, "Overcast"),
   (45, "Fog"), (48, "Depositing rime fog"),
   (51, "Drizzle: Light intensity"), (53, "Drizzle: Moderate intensity"),
   (55, "Drizzle: Dense intensity"), (56, "Freezing Drizzle: Light intensity"),
   (57, "Freezing Drizzle: Dense intensity"), (61, "Rain: Slight intensity"),
   (63, "Rain: Moderate intensity"), (65, "Rain: Heavy intensity"),
   (66, "Freezing Rain: Light intensity"), (67, "Freezing Rain: Heavy intensity"),
   (71, "Snow fall: Slight intensity"), (73, "Snow fall: Moderate intensity"),
   (75, "Snow fall: Heavy intensity"), (77, "Snow grains"),
   (80, "Rain showers: Slight intensity"), (81, "Rain showers: Moderate intensity"),
   (82, "Rain showers: Violent intensity"), (85, "Snow showers: Slight intensity"),
   (86, "Snow showers: Heavy intensity"), (95, "Thunderstorm: Slight or moderate"),
   (96, "Thunderstorm with slight hail"), (99, "Thunderstorm with heavy hail")]

/-- The plain `getWeatherDescription` of the first helpers.js revision:
table lookup with the Unknown fallback. -/
def getWeatherDescriptionV1 (code : Nat) : String :=
  jsOrStr (alookup descTable code) "Unknown"

/-- The icon table of the first helpers.js revision, rebuilt on each call
with the day/night choice already applied (`isDay` truthy means nonzero). -/
def iconTableV1 (isDay : Nat) : List (Nat × Nat) :=
  [(0, if isDay ≠ 0 then 100 else 150),
   (1, if isDay ≠ 0 then 101 else 151),
   (2, if isDay ≠ 0 then 103 else 153),
   (3, 104), (45, 501), (48, 501), (51, 305), (53, 306), (55, 307),
   (56, 310), (57, 311), (61, 305), (63, 306), (65, 307), (66, 310),
   (67, 311), (71, 400), (73, 401), (75, 402), (77, 403), (80, 300),
   (81, 301), (82, 302), (85, 404), (86, 405), (95, 302), (96, 308),
   (99, 308)]

/-- The plain `getIconCode` of the first helpers.js revision: table lookup
with the 999 fallback. -/
def getIconCodeV1 (code isDay : Nat) : Nat :=
  jsOrNat (alookup (iconTableV1 isDay) code) 999

/-- The day/night icon table of the second helpers.js revision; each entry
carries the day and the night code. -/
def iconTableV2 : List (Nat × Nat × Nat) :=
  [(0, 100, 150), (1, 101, 151), (2, 103, 153), (3, 104, 104),
   (45, 501, 501), (48, 501, 501), (51, 305, 305), (53, 306, 306),
   (55, 307, 307), (56, 310, 310), (57, 311, 311), (61, 305, 305),
   (63, 306, 306), (65, 307, 307), (66, 310, 310), (67, 311, 311),
   (71, 400, 400), (73, 401, 401), (75, 402, 402), (77, 403, 403),
   (80, 300, 300), (81, 301, 301), (82, 302, 302), (85, 404, 404),
   (86, 405, 405), (95, 302, 302), (96, 308, 308), (99, 308, 308)]

/-- The computation inside the memoized `getIconCode` of the second
helpers.js revision on a cache miss: 999 unless the code is in the table,
otherwise the day or night variant by truthiness of `isDay`. -/
def getIconCodePure (code isDay : Nat) : Nat :=
  match alookup iconTableV2 code with
  | some p => if isDay ≠ 0 then p.1 else p.2
  | none => 999

/-- Memoization cache of the second-revision `getIconCode`: the key
string interpolates code and isDay, which for numbers is injective, so
the key is modelled as the pair. -/
abbrev IconCache : Type := List ((Nat × Nat) × Nat)

/-- The memoized `getIconCode` of the second helpers.js revision: return a
truthy cached value, otherwise compute, store and return. JavaScript
property assignment is modelled as a shadowing cons. -/
def getIconCodeMemo (st : IconCache) (code isDay : Nat) : Nat × IconCache :=
  match alookup st (code, isDay) with
  | some v =>
    if v = 0 then
      (getIconCodePure code isDay,
       ((code, isDay), getIconCodePure code isDay) :: st)
    else (v, st)
  | none =>
    (getIconCodePure code isDay,
     ((code, isDay), getIconCodePure code isDay) :: st)

/-- Memoization cache of the second-revision `getWeatherDescription`. -/
abbrev DescCache : Type := List (Nat × String)

/-- The memoized `getWeatherDescription` of the second helpers.js
revision: return a truthy cached value, otherwise compute the table
lookup with the Unknown fallback, store and return. -/
def getWeatherDescriptionMemo (st : DescCache) (code : Nat) : String × DescCache :=
  match alookup st code with
  | some s =>
    if s = "" then
      (jsOrStr (alookup descTable code) "Unknown",
       (code, jsOrStr (alookup descTable code) "Unknown") :: st)
    else (s, st)
  | none =>
    (jsOrStr (alookup descTable code) "Unknown",
     (code, jsOrStr (alookup descTable code) "Unknown") :: st)

/-- Run a call sequence against the memoized `getIconCode`, collecting the
observable results. -/
def runIconSeq (st : IconCache) : List (Nat × Nat) → List Nat
  | [] => []
  | q :: qs =>
    let r := getIconCodeMemo st q.1 q.2
    r.1 :: runIconSeq r.2 qs

/-- Run a call sequence against the memoized `getWeatherDescription`,
collecting the observable results. -/
def runDescSeq (st : DescCache) : List Nat → List String
  | [] => []
  | q :: qs =>
    let r := getWeatherDescriptionMemo st q
    r.1 :: runDescSeq r.2 qs

/-! ## Concrete values used by witnesses and counterexamples -/

/-- A sample mapped geocode record. -/
def rEx : GeocodeResult := ⟨"A", none, none, none, none, "", ⟨"1", "2"⟩, none⟩

/-- A sample raw provider record with no annotations object at all, hence
no per-result timezone. -/
def rawEx : RawItem := ⟨"B", none, none, ⟨"3", "4"⟩⟩

/-- An axios error carrying an upstream 404 response, as produced by a
not-found reply from a provider. -/
def errEx404 : HandlerError :=
  ⟨none, some "Request failed with status code 404", true, some ⟨404, none⟩⟩

/-- A weather request for London coordinates in the London timezone. -/
def reqLondon : MiddlewareReq :=
  ⟨"/api/weather", none, some "51.5", some "-0.12", some "Europe/London"⟩

/-- The same weather request with the UTC timezone instead. -/
def reqUTC : MiddlewareReq :=
  ⟨"/api/weather", none, some "51.5", some "-0.12", some "UTC"⟩

/-- A sample cache with two entries, TTL 10 and capacity 2. -/
def cacheEx : SpecCache Nat := ⟨[⟨"a", 1, 0⟩, ⟨"b", 2, 1⟩], 10, 2⟩

/-! ## Lemmas about the deduplication loop -/

theorem uniqueResultsAux_sublist (seen : List String) (l : List GeocodeResult) :
    List.Sublist (uniqueResultsAux seen l) l := by
  induction l generalizing seen with
  | nil => simp [uniqueResultsAux]
  | cons x xs ih =>
    simp only [uniqueResultsAux]
    by_cases h : identifier x ∈ seen
    · rw [if_pos h]; exact List.Sublist.cons x (ih seen)
    · rw [if_neg h]; exact List.Sublist.cons₂ x (ih _)

theorem mem_uniqueResultsAux (seen : List String) (l : List GeocodeResult)
    (y : GeocodeResult) (hy : y ∈ uniqueResultsAux seen l) : identifier y ∉ seen := by
  induction l generalizing seen with
  | nil => simp [uniqueResultsAux] at hy
  | cons x xs ih =>
    simp only [uniqueResultsAux] at hy
    by_cases h : identifier x ∈ seen
    · rw [if_pos h] at hy; exact ih seen hy
    · rw [if_neg h] at hy
      rcases List.mem_cons.mp hy with rfl | hy2
      · exact h
      · have h2 := ih (identifier x :: seen) hy2
        intro hc
        exact h2 (List.mem_cons_of_mem _ hc)

theorem mem_uniqueResultsAux_first (seen : List String) (l : List GeocodeResult)
    (y : GeocodeResult) (hy : y ∈ uniqueResultsAux seen l) :
    firstWithId (identifier y) l = some y := by
  induction l generalizing seen with
  | nil => simp [uniqueResultsAux] at hy
  | cons x xs ih =>
    simp only [uniqueResultsAux] at hy
    by_cases h : identifier x ∈ seen
    · rw [if_pos h] at hy
      have h1 := ih seen hy
      have h2 : identifier x ≠ identifier y := by
        intro he
        exact (mem_uniqueResultsAux seen xs y hy) (he ▸ h)
      simp only [firstWithId]
      rw [if_neg h2]; exact h1
    · rw [if_neg h] at hy
      rcases List.mem_cons.mp hy with rfl | hy2
      · simp [firstWithId]
      · have h1 := ih (identifier x :: seen) hy2
        have h2 := mem_uniqueResultsAux (identifier x :: seen) xs y hy2
        have h3 : identifier x ≠ identifier y := by
          intro he
          apply h2
          rw [← he]
          exact List.mem_cons_self _ _
        simp only [firstWithId]
        rw [if_neg h3]; exact h1

theorem pairwise_uniqueResultsAux (seen : List String) (l : List GeocodeResult) :
    (uniqueResultsAux seen l).Pairwise (fun a b => identifier a ≠ identifier b) := by
  induction l generalizing seen with
  | nil => simp [uniqueResultsAux]
  | cons x xs ih =>
    simp only [uniqueResultsAux]
    by_cases h : identifier x ∈ seen
    · rw [if_pos h]; exact ih seen
    · rw [if_neg h]
      refine List.Pairwise.cons ?_ (ih _)
      intro b hb he
      exact (mem_uniqueResultsAux _ xs b hb) (List.mem_cons.mpr (Or.inl he.symm))

theorem cover_uniqueResultsAux (seen : List String) (l : List GeocodeResult)
    (x : GeocodeResult) (hx : x ∈ l) :
    identifier x ∈ (uniqueResultsAux seen l).map identifier ∨ identifier x ∈ seen := by
  induction l generalizing seen with
  | nil => cases hx
  | cons z zs ih =>
    simp only [uniqueResultsAux]
    by_cases h : identifier z ∈ seen
    · rw [if_pos h]
      rcases List.mem_cons.mp hx with rfl | hx2
      · exact Or.inr h
      · exact ih seen hx2
    · rw [if_neg h]
      rcases List.mem_cons.mp hx with rfl | hx2
      · left; simp
      · rcases ih (identifier z :: seen) hx2 with hm | hm
        · left; simp only [List.map_cons]; exact List.mem_cons_of_mem _ hm
        · rcases List.mem_cons.mp hm with he | hm2
          · left; simp [he]
          · exact Or.inr hm2

/-- C3: the geocode result list contains no two elements with the same
(formatted, latitude, longitude) triple, deduplication is by that
composite identity, keeps input (first-seen) order, loses no identity,
and keeps exactly the first occurrence of each identity. -/
theorem C3_geocode_dedup (l : List GeocodeResult) :
    (uniqueResults l).Pairwise (fun a b =>
      ¬(a.formatted = b.formatted ∧ a.geometry.lat = b.geometry.lat ∧
        a.geometry.lng = b.geometry.lng)) ∧
    List.Sublist (uniqueResults l) l ∧
    (∀ x ∈ l, identifier x ∈ (uniqueResults l).map identifier) ∧
    (∀ y ∈ uniqueResults l, firstWithId (identifier y) l = some y) := by
  refine ⟨?_, uniqueResultsAux_sublist [] l, ?_, ?_⟩
  · refine (pairwise_uniqueResultsAux [] l).imp ?_
    intro a b hne hc
    obtain ⟨h1, h2, h3⟩ := hc
    exact hne (by unfold identifier; rw [h1, h2, h3])
  · intro x hx
    rcases cover_uniqueResultsAux [] l x hx with hm | hm
    · exact hm
    · cases hm
  · intro y hy
    exact mem_uniqueResultsAux_first [] l y hy

/-- C3 witness: instantiation on a concrete duplicated record. -/
theorem C3_geocode_dedup_witness :
    identifier rEx ∈ (uniqueResults [rEx, rEx]).map identifier :=
  (C3_geocode_dedup [rEx, rEx]).2.2.1 rEx (by simp)

/-- C4: a missing or empty provider result list makes GET /api/geocode
respond 200 with an empty results list, never an error status. -/
theorem C4_empty_geocode_ok (u : UpstreamGeo)
    (h : u = UpstreamGeo.missing ∨ u = UpstreamGeo.results []) :
    geocodeHandle u = (200, []) := by
  rcases h with rfl | rfl
  · rfl
  · rfl

/-- C4 witness: the empty provider result list. -/
theorem C4_empty_geocode_ok_witness :
    geocodeHandle (UpstreamGeo.results []) = (200, []) :=
  C4_empty_geocode_ok _ (Or.inr rfl)

/-- C7: a raw record whose timezone annotation chain is falsy maps to a
record with the empty-string timezone, the diagnostic is logged, and the
request still succeeds with that record identity included in the 200
response. -/
theorem C7_missing_timezone (items : List RawItem) (item : RawItem)
    (hmem : item ∈ items) (hmiss : tzName item = none) :
    (mapItem item).timezone = "" ∧ tzDiagLogged item = true ∧
    (geocodeHandle (UpstreamGeo.results items)).1 = 200 ∧
    identifier (mapItem item) ∈
      ((geocodeHandle (UpstreamGeo.results items)).2.map identifier) := by
  have hne : items.length ≠ 0 := by
    cases items with
    | nil => cases hmem
    | cons a as => simp
  have hh : geocodeHandle (UpstreamGeo.results items) =
      (200, uniqueResults (items.map mapItem)) := by
    simp [geocodeHandle, hne]
  refine ⟨?_, ?_, ?_, ?_⟩
  · simp [mapItem, mapItemLog, hmiss, jsOrStr]
  · simp [tzDiagLogged, mapItemLog, hmiss]
  · rw [hh]
  · rw [hh]
    have hx : mapItem item ∈ items.map mapItem := List.mem_map_of_mem _ hmem
    rcases cover_uniqueResultsAux [] (items.map mapItem) (mapItem item) hx with hm | hm
    · exact hm
    · cases hm

/-- C7 witness: a concrete record with no annotations object. -/
theorem C7_missing_timezone_witness :
    (mapItem rawEx).timezone = "" ∧ tzDiagLogged rawEx = true ∧
    (geocodeHandle (UpstreamGeo.results [rawEx])).1 = 200 ∧
    identifier (mapItem rawEx) ∈
      ((geocodeHandle (UpstreamGeo.results [rawEx])).2.map identifier) :=
  C7_missing_timezone [rawEx] rawEx (by simp) (by rfl)

/-! ## Cache invariants (C1) -/

/-- C1: whatever `get` returns comes from a live entry within its TTL; a
`set` keeps the entry count within the configured maximum; when the cache
is full and the key is fresh, `set` evicts the oldest (head) entry; and
the server configuration is TTL 300 with at most 100 keys. -/
theorem C1_cache_ttl_bound_eviction :
    (∀ (V : Type) (c : SpecCache V) (now : Nat) (k : String) (v : V),
      c.get now k = some v →
        ∃ e ∈ c.entries, e.value = v ∧ e.key = k ∧ now ≤ e.insertedAt + c.ttl) ∧
    (∀ (V : Type) (c : SpecCache V) (now : Nat) (k : String) (v : V),
      1 ≤ c.maxKeys → c.entries.length ≤ c.maxKeys →
        (c.set now k v).entries.length ≤ c.maxKeys) ∧
    (∀ (V : Type) (c : SpecCache V) (now : Nat) (k : String) (v : V),
      c.entries.length = c.maxKeys → (∀ e ∈ c.entries, e.key ≠ k) →
        (c.set now k v).entries = c.entries.tail ++ [⟨k, v, now⟩]) ∧
    ((serverCache Nat).ttl = 300 ∧ (serverCache Nat).maxKeys = 100) := by
  refine ⟨?_, ?_, ?_, rfl, rfl⟩
  · intro V c now k v h
    unfold SpecCache.get at h
    cases hf : c.entries.find? (fun e => e.key = k) with
    | none => rw [hf] at h; cases h
    | some e =>
      rw [hf] at h
      change (if now ≤ e.insertedAt + c.ttl then some e.value else none) = some v at h
      by_cases ht : now ≤ e.insertedAt + c.ttl
      · rw [if_pos ht] at h
        refine ⟨e, List.mem_of_find?_eq_some hf, ?_, ?_, ht⟩
        · exact Option.some.inj h
        · have hp := List.find?_some hf
          exact of_decide_eq_true hp
      · rw [if_neg ht] at h; cases h
  · intro V c now k v h1 h2
    have hple : (c.entries.filter (fun e => e.key ≠ k)).length ≤ c.entries.length :=
      List.length_filter_le _ _
    unfold SpecCache.set
    by_cases hc : c.maxKeys ≤ (c.entries.filter (fun e => e.key ≠ k)).length
    · simp only [if_pos hc, List.length_append, List.length_tail, List.length_cons,
        List.length_nil]
      omega
    · simp only [if_neg hc, List.length_append, List.length_cons, List.length_nil]
      omega
  · intro V c now k v h1 h2
    have hfe : c.entries.filter (fun e => e.key ≠ k) = c.entries := by
      apply List.filter_eq_self.mpr
      intro e he
      exact decide_eq_true (h2 e he)
    unfold SpecCache.set
    simp only [hfe]
    rw [if_pos (by omega)]

/-- C1 witness: concrete instantiation of the three clauses on a cache
with two entries, TTL 10 and capacity 2. -/
theorem C1_cache_ttl_bound_eviction_witness :
    (∃ e ∈ cacheEx.entries, e.value = 1 ∧ e.key = "a" ∧ 5 ≤ e.insertedAt + cacheEx.ttl) ∧
    (cacheEx.set 3 "c" 9).entries.length ≤ cacheEx.maxKeys ∧
    (cacheEx.set 3 "c" 9).entries = cacheEx.entries.tail ++ [⟨"c", 9, 3⟩] := by
  refine ⟨?_, ?_, ?_⟩
  · exact C1_cache_ttl_bound_eviction.1 Nat cacheEx 5 "a" 1 (by decide)
  · exact C1_cache_ttl_bound_eviction.2.1 Nat cacheEx 3 "c" 9 (by decide) (by decide)
  · exact C1_cache_ttl_bound_eviction.2.2.1 Nat cacheEx 3 "c" 9 (by decide) (by decide)

/-! ## Cache keys (C2) -/

theorem string_append_cancel_left (s t u : String) (h : s ++ t = s ++ u) : t = u := by
  rcases s with ⟨s⟩
  rcases t with ⟨t⟩
  rcases u with ⟨u⟩
  have h2 : s ++ t = s ++ u := congrArg String.data h
  exact congrArg String.mk (List.append_cancel_left h2)

/-- C2 counterexample: two weather requests that differ only in the
timezone parameter receive the same key from `cacheMiddleware`, so they
do collapse to one cache entry. -/
theorem C2_weather_key_timezone_collapse :
    cacheMiddlewareKey reqLondon = cacheMiddlewareKey reqUTC ∧
    reqLondon.timezone ≠ reqUTC.timezone ∧
    reqLondon.path = "/api/weather" ∧ reqUTC.path = "/api/weather" ∧
    reqLondon.latitude = reqUTC.latitude ∧
    reqLondon.longitude = reqUTC.longitude := by
  refine ⟨rfl, ?_, rfl, rfl, rfl, rfl⟩
  decide

/-- C2 amended: keys are deterministic functions of the endpoint and its
parameters in both revisions; in the first revision the weather key
includes the timezone, so weather requests differing only in timezone
never share a key; in the cacheMiddleware revision the key reads only the
path, the query text and latitude:longitude, so it is invariant under
timezone changes. -/
theorem C2_cache_key_amended :
    (∀ lat lon tz1 tz2 : String, tz1 ≠ tz2 →
      cacheKeyWeatherV1 lat lon tz1 ≠ cacheKeyWeatherV1 lat lon tz2) ∧
    (∀ r1 r2 : MiddlewareReq, r1.path = r2.path → r1.query = r2.query →
      r1.latitude = r2.latitude → r1.longitude = r2.longitude →
      cacheMiddlewareKey r1 = cacheMiddlewareKey r2) ∧
    (∀ q1 q2 : String, q1 ≠ q2 → cacheKeyGeocodeV1 q1 ≠ cacheKeyGeocodeV1 q2) := by
  refine ⟨?_, ?_, ?_⟩
  · intro lat lon tz1 tz2 hne h
    exact hne (string_append_cancel_left _ _ _ h)
  · intro r1 r2 h1 h2 h3 h4
    unfold cacheMiddlewareKey
    rw [h1, h2, h3, h4]
  · intro q1 q2 hne h
    exact hne (string_append_cancel_left _ _ _ h)

/-- C2 amended witness: the first-revision weather key separates the two
timezones the counterexample collapses. -/
theorem C2_cache_key_amended_witness :
    cacheKeyWeatherV1 "51.5" "-0.12" "Europe/London" ≠
      cacheKeyWeatherV1 "51.5" "-0.12" "UTC" :=
  C2_cache_key_amended.1 "51.5" "-0.12" "Europe/London" "UTC" (by decide)

/-! ## Error normalization (C5) -/

/-- C5 counterexample: an upstream 404 reaches the centralized
errorHandler of the second revision as an axios error and is surfaced
with status 404, which is neither 500 nor 429. -/
theorem C5_upstream_status_passthrough :
    errorHandlerStatus errEx404 = 404 ∧
    errEx404.isAxiosError = true ∧
    errEx404.response = some ⟨404, none⟩ ∧
    (404 : Nat) ≠ 500 ∧ (404 : Nat) ≠ 429 := by
  refine ⟨rfl, rfl, rfl, ?_, ?_⟩ <;> decide

/-- C5 amended: the per-handler catch blocks of the first revision
surface upstream failures as 500, except an upstream 429 which is
surfaced as 429; the centralized errorHandler of the second revision
instead passes the upstream status through verbatim for axios errors and
falls back to the error status or 500 otherwise. -/
theorem C5_error_status_amended :
    (∀ e : HandlerError, catchStatusV1 e = 429 ∨ catchStatusV1 e = 500) ∧
    (∀ (e : HandlerError) (r : AxiosResp), e.response = some r →
      (catchStatusV1 e = 429 ↔ r.status = 429)) ∧
    (∀ (e : HandlerError) (r : AxiosResp), e.isAxiosError = true →
      e.response = some r → errorHandlerStatus e = r.status) ∧
    (∀ e : HandlerError, e.response = none →
      errorHandlerStatus e = jsOrNat e.status 500) := by
  refine ⟨?_, ?_, ?_, ?_⟩
  · intro e
    unfold catchStatusV1
    cases e.response with
    | none => exact Or.inr rfl
    | some r =>
      change ((if r.status = 429 then 429 else 500) = 429 ∨
        (if r.status = 429 then 429 else 500) = 500)
      by_cases h : r.status = 429
      · rw [if_pos h]; exact Or.inl rfl
      · rw [if_neg h]; exact Or.inr rfl
  · intro e r h
    unfold catchStatusV1
    rw [h]
    change ((if r.status = 429 then 429 else 500) = 429 ↔ r.status = 429)
    by_cases hs : r.status = 429
    · rw [if_pos hs]; simp [hs]
    · rw [if_neg hs]; simp [hs]
  · intro e r ha hr
    unfold errorHandlerStatus
    rw [hr]
    change (if e.isAxiosError = true then r.status else jsOrNat e.status 500) = r.status
    rw [if_pos ha]
  · intro e hr
    unfold errorHandlerStatus
    rw [hr]

/-- C5 amended witness: concrete instantiation of the first-revision
catch and the second-revision passthrough on the 404 error. -/
theorem C5_error_status_amended_witness :
    (catchStatusV1 errEx404 = 429 ↔ (404 : Nat) = 429) ∧
    errorHandlerStatus errEx404 = 404 := by
  constructor
  · exact C5_error_status_amended.2.1 errEx404 ⟨404, none⟩ rfl
  · exact C5_error_status_amended.2.2.1 errEx404 ⟨404, none⟩ rfl rfl

/-! ## Validation gate (C6) -/

/-- C6: a geocode request whose query is missing or shorter than 2
characters is answered 400 with the failed field listed and without
reaching the handler; in general a failed validation short-circuits with
status 400 reporting exactly the failed fields — all of them, as the
weather chain with three failing fields shows. -/
theorem C6_validation_gate :
    (∀ (q : Option String) (hs : Nat),
      (match q with
       | none => True
       | some s => s.length < 2) →
      geocodePipeline q hs = ⟨400, ["query"], false⟩) ∧
    (∀ (checks : List (String × Bool)) (hs : Nat), fieldErrors checks ≠ [] →
      (runValidated checks hs).status = 400 ∧
      (runValidated checks hs).upstreamCalled = false ∧
      (runValidated checks hs).errorFields = fieldErrors checks) ∧
    (∀ (checks : List (String × Bool)) (name : String),
      name ∈ fieldErrors checks ↔ (name, false) ∈ checks) ∧
    fieldErrors (weatherChecks false false none) =
      ["latitude", "longitude", "timezone"] := by
  refine ⟨?_, ?_, ?_, by decide⟩
  · intro q hs h
    cases q with
    | none => rfl
    | some s =>
      have hd : decide (2 ≤ s.length) = false := decide_eq_false (by omega)
      simp [geocodePipeline, runValidated, geocodeChecks, fieldErrors, hd]
  · intro checks hs h
    have hne : (fieldErrors checks).isEmpty = false := by
      cases hfe : fieldErrors checks with
      | nil => exact absurd hfe h
      | cons a as => rfl
    simp [runValidated, hne]
  · intro checks name
    constructor
    · intro hm
      simp only [fieldErrors, List.mem_map, List.mem_filter] at hm
      obtain ⟨⟨a, b⟩, ⟨hmem, hb⟩, hn⟩ := hm
      simp only at hn hb
      cases b with
      | false => rw [← hn]; exact hmem
      | true => simp at hb
    · intro hm
      simp only [fieldErrors, List.mem_map, List.mem_filter]
      exact ⟨(name, false), ⟨hm, rfl⟩, rfl⟩

/-- C6 witness: a one-character query is rejected. -/
theorem C6_validation_gate_witness :
    geocodePipeline (some "a") 200 = ⟨400, ["query"], false⟩ :=
  C6_validation_gate.1 (some "a") 200 (by decide)

/-! ## Hourly window selection (C8) -/

theorem mkTimes_length (b n : Nat) : (mkTimes b n).length = n := by
  induction n generalizing b with
  | zero => rfl
  | succ n ih => simp [mkTimes, ih]

theorem mkTimes_get (b n j : Nat) (h : j < n) :
    (mkTimes b n)[j]? = some ((b + j) * 60) := by
  induction n generalizing b j with
  | zero => omega
  | succ n ih =>
    cases j with
    | zero => simp [mkTimes]
    | succ j =>
      have h2 : j < n := by omega
      simp only [mkTimes, List.getElem?_cons_succ]
      rw [ih (b + 1) j h2]
      congr 2
      omega

theorem hourMatchIdx_mkTimes (b n nowMin : Nat) (h1 : b ≤ nowMin / 60)
    (h2 : nowMin / 60 < b + n) :
    hourMatchIdx nowMin (mkTimes b n) = some (nowMin / 60 - b) := by
  induction n generalizing b with
  | zero => omega
  | succ n ih =>
    simp only [mkTimes, hourMatchIdx]
    have hb : b * 60 / 60 = b := by omega
    by_cases he : b = nowMin / 60
    · rw [if_pos (by rw [hb]; exact he)]
      congr 1
      omega
    · rw [if_neg (by rw [hb]; exact he)]
      have h1b : b + 1 ≤ nowMin / 60 := by omega
      have h2b : nowMin / 60 < (b + 1) + n := by omega
      rw [ih (b + 1) h1b h2b]
      show some (nowMin / 60 - (b + 1) + 1) = some (nowMin / 60 - b)
      congr 1
      omega

/-- C8 counterexample: with the local time at minute 840 (hour 14) and an
hourly array whose entries lie at 12:00 and 13:00, no entry matches the
current hour, `startIndex` defaults to 0, and the displayed window starts
at an entry that is not strictly after the current time. -/
theorem C8_window_start_not_after_now :
    hourlyStartIndex 840 [720, 780] = 0 ∧
    hourlyWindow 840 [720, 780] 12 = [720, 780] ∧
    ¬(840 < 720) := by decide

/-- C8 amended: when the hourly time array consists of consecutive
whole-hour timestamps whose range contains the current hour, the window
starts right after the entry matching the current hour, every earlier
entry is not after the current time, the starting entry (when it exists)
is strictly after the current time, and the selectable display counts all
lie within 12 to 48; with no matching entry the index defaults to 0. -/
theorem C8_hourly_window_amended (b n nowMin : Nat)
    (h1 : b ≤ nowMin / 60) (h2 : nowMin / 60 < b + n) :
    hourlyStartIndex nowMin (mkTimes b n) = nowMin / 60 - b + 1 ∧
    (∀ j t, j < hourlyStartIndex nowMin (mkTimes b n) →
      (mkTimes b n)[j]? = some t → t ≤ nowMin) ∧
    (∀ t, (mkTimes b n)[hourlyStartIndex nowMin (mkTimes b n)]? = some t →
      nowMin < t) ∧
    (∀ m ∈ numHoursOptions, 12 ≤ m ∧ m ≤ 48) := by
  have hidx : hourlyStartIndex nowMin (mkTimes b n) = nowMin / 60 - b + 1 := by
    unfold hourlyStartIndex
    rw [hourMatchIdx_mkTimes b n nowMin h1 h2]
  refine ⟨hidx, ?_, ?_, ?_⟩
  · intro j t hj ht
    rw [hidx] at hj
    have hjn : j < n := by
      by_contra hc
      push_neg at hc
      rw [List.getElem?_eq_none (by rw [mkTimes_length]; omega)] at ht
      cases ht
    rw [mkTimes_get b n j hjn] at ht
    have ht2 : t = (b + j) * 60 := (Option.some.inj ht).symm
    omega
  · intro t ht
    rw [hidx] at ht
    by_cases hs : nowMin / 60 - b + 1 < n
    · rw [mkTimes_get b n _ hs] at ht
      have ht2 : t = (b + (nowMin / 60 - b + 1)) * 60 := (Option.some.inj ht).symm
      omega
    · rw [List.getElem?_eq_none (by rw [mkTimes_length]; omega)] at ht
      cases ht
  · intro m hm
    simp only [numHoursOptions, List.mem_cons, List.not_mem_nil, or_false] at hm
    rcases hm with rfl | rfl | rfl | rfl | rfl | rfl | rfl <;> omega

/-- C8 amended witness: three hours starting at hour 10, current time
within hour 10. -/
theorem C8_hourly_window_amended_witness :
    hourlyStartIndex 630 (mkTimes 10 3) = 630 / 60 - 10 + 1 :=
  (C8_hourly_window_amended 10 3 630 (by decide) (by decide)).1

/-! ## Icon and description lookups (C9, C10) -/

theorem alookup_mem {α β : Type} [DecidableEq α] (l : List (α × β)) (k : α) (v : β)
    (h : alookup l k = some v) : (k, v) ∈ l := by
  induction l with
  | nil => cases h
  | cons p ps ih =>
    simp only [alookup] at h
    by_cases hp : p.1 = k
    · rw [if_pos hp] at h
      have hv : p.2 = v := Option.some.inj h
      exact List.mem_cons.mpr (Or.inl (Prod.ext_iff.mpr ⟨hp.symm, hv.symm⟩))
    · rw [if_neg hp] at h
      exact List.mem_cons_of_mem _ (ih h)

theorem alookup_map {α β γ : Type} [DecidableEq α] (l : List (α × β)) (g : β → γ)
    (k : α) :
    alookup (l.map (fun q => (q.1, g q.2))) k = (alookup l k).map g := by
  induction l with
  | nil => rfl
  | cons p ps ih =>
    simp only [List.map_cons, alookup]
    by_cases hp : p.1 = k
    · rw [if_pos hp, if_pos hp]
      rfl
    · rw [if_neg hp, if_neg hp]
      exact ih

theorem iconTableV1_eq_map (isDay : Nat) :
    iconTableV1 isDay =
      iconTableV2.map (fun q => (q.1, if isDay ≠ 0 then q.2.1 else q.2.2)) := by
  by_cases hd : isDay ≠ 0 <;> simp [iconTableV1, iconTableV2, hd]

theorem iconTableV2_values_pos : ∀ q ∈ iconTableV2, q.2.1 ≠ 0 ∧ q.2.2 ≠ 0 := by
  decide

theorem icon_pure_eq_v1 (code isDay : Nat) :
    getIconCodePure code isDay = getIconCodeV1 code isDay := by
  unfold getIconCodePure getIconCodeV1
  rw [iconTableV1_eq_map,
    alookup_map iconTableV2 (fun b => if isDay ≠ 0 then b.1 else b.2) code]
  cases h : alookup iconTableV2 code with
  | none => rfl
  | some p =>
    have hv := iconTableV2_values_pos (code, p) (alookup_mem iconTableV2 code p h)
    by_cases hd : isDay ≠ 0 <;> simp [jsOrNat, hd, hv.1, hv.2]

theorem icon_pure_ne_zero (c d : Nat) : getIconCodePure c d ≠ 0 := by
  unfold getIconCodePure
  cases h : alookup iconTableV2 c with
  | none => simp
  | some p =>
    have hv := iconTableV2_values_pos (c, p) (alookup_mem iconTableV2 c p h)
    show (if d ≠ 0 then p.1 else p.2) ≠ 0
    by_cases hd : d ≠ 0
    · rw [if_pos hd]; exact hv.1
    · rw [if_neg hd]; exact hv.2

theorem jsOrStr_unknown_ne_empty (v : Option String) : jsOrStr v "Unknown" ≠ "" := by
  cases v with
  | none => decide
  | some s =>
    show (if s = "" then "Unknown" else s) ≠ ""
    by_cases h : s = ""
    · rw [if_pos h]; decide
    · rw [if_neg h]; exact h

theorem getIconCodeMemo_miss (st : IconCache) (code isDay : Nat)
    (h : alookup st (code, isDay) = none) :
    getIconCodeMemo st code isDay =
      (getIconCodePure code isDay,
        ((code, isDay), getIconCodePure code isDay) :: st) := by
  unfold getIconCodeMemo
  rw [h]

theorem getIconCodeMemo_hit (st : IconCache) (code isDay v : Nat)
    (h : alookup st (code, isDay) = some v) (hz : v ≠ 0) :
    getIconCodeMemo st code isDay = (v, st) := by
  unfold getIconCodeMemo
  rw [h]
  exact if_neg hz

theorem getWeatherDescriptionMemo_miss (st : DescCache) (code : Nat)
    (h : alookup st code = none) :
    getWeatherDescriptionMemo st code =
      (jsOrStr (alookup descTable code) "Unknown",
        (code, jsOrStr (alookup descTable code) "Unknown") :: st) := by
  unfold getWeatherDescriptionMemo
  rw [h]

theorem getWeatherDescriptionMemo_hit (st : DescCache) (code : Nat) (s : String)
    (h : alookup st code = some s) (hz : s ≠ "") :
    getWeatherDescriptionMemo st code = (s, st) := by
  unfold getWeatherDescriptionMemo
  rw [h]
  exact if_neg hz

theorem runIconSeq_pure (seq : List (Nat × Nat)) :
    ∀ st : IconCache, (∀ p ∈ st, p.2 = getIconCodePure p.1.1 p.1.2) →
      runIconSeq st seq = seq.map (fun q => getIconCodePure q.1 q.2) := by
  induction seq with
  | nil => intro st hst; rfl
  | cons q qs ih =>
    intro st hst
    simp only [runIconSeq, List.map_cons]
    cases h : alookup st (q.1, q.2) with
    | none =>
      rw [getIconCodeMemo_miss st q.1 q.2 h]
      refine congrArg₂ List.cons rfl (ih _ ?_)
      intro p hp
      rcases List.mem_cons.mp hp with rfl | hp2
      · rfl
      · exact hst p hp2
    | some v =>
      have hv : v = getIconCodePure q.1 q.2 :=
        hst ((q.1, q.2), v) (alookup_mem st (q.1, q.2) v h)
      have hz : v ≠ 0 := by rw [hv]; exact icon_pure_ne_zero q.1 q.2
      rw [getIconCodeMemo_hit st q.1 q.2 v h hz]
      exact congrArg₂ List.cons hv (ih st hst)

theorem runDescSeq_pure (seq : List Nat) :
    ∀ st : DescCache, (∀ p ∈ st, p.2 = getWeatherDescriptionV1 p.1) →
      runDescSeq st seq = seq.map getWeatherDescriptionV1 := by
  induction seq with
  | nil => intro st hst; rfl
  | cons q qs ih =>
    intro st hst
    simp only [runDescSeq, List.map_cons]
    cases h : alookup st q with
    | none =>
      rw [getWeatherDescriptionMemo_miss st q h]
      refine congrArg₂ List.cons rfl (ih _ ?_)
      intro p hp
      rcases List.mem_cons.mp hp with rfl | hp2
      · rfl
      · exact hst p hp2
    | some s =>
      have hv : s = getWeatherDescriptionV1 q :=
        hst (q, s) (alookup_mem st q s h)
      have hz : s ≠ "" := by
        rw [hv]
        exact jsOrStr_unknown_ne_empty _
      rw [getWeatherDescriptionMemo_hit st q s h hz]
      exact congrArg₂ List.cons hv (ih st hst)

/-- C9: the clear-sky code maps to distinct day and night icon codes in
both helper revisions, and any weather code outside the mapping table
yields the unknown sentinel 999 for every isDay value. -/
theorem C9_icon_day_night_unknown :
    getIconCodeV1 0 1 = 100 ∧ getIconCodeV1 0 0 = 150 ∧
    getIconCodePure 0 1 = 100 ∧ getIconCodePure 0 0 = 150 ∧
    getIconCodeV1 0 1 ≠ getIconCodeV1 0 0 ∧
    getIconCodePure 0 1 ≠ getIconCodePure 0 0 ∧
    (∀ code isDay, alookup iconTableV2 code = none →
      getIconCodePure code isDay = 999 ∧ getIconCodeV1 code isDay = 999) := by
  refine ⟨by decide, by decide, by decide, by decide, by decide, by decide, ?_⟩
  intro code isDay h
  have hp : getIconCodePure code isDay = 999 := by
    unfold getIconCodePure
    rw [h]
  refine ⟨hp, ?_⟩
  rw [← icon_pure_eq_v1]
  exact hp

/-- C9 witness: weather code 4 is not in the table. -/
theorem C9_icon_day_night_unknown_witness :
    getIconCodePure 4 0 = 999 ∧ getIconCodeV1 4 0 = 999 :=
  C9_icon_day_night_unknown.2.2.2.2.2.2 4 0 (by decide)

/-- C10: starting from the empty module-level caches, every call sequence
against the memoized getIconCode and getWeatherDescription returns
exactly what the plain table-lookup revisions return. -/
theorem C10_memoization_transparent :
    (∀ seq : List (Nat × Nat),
      runIconSeq [] seq = seq.map (fun q => getIconCodeV1 q.1 q.2)) ∧
    (∀ seq : List Nat, runDescSeq [] seq = seq.map getWeatherDescriptionV1) := by
  constructor
  · intro seq
    rw [runIconSeq_pure seq [] (fun p hp => absurd hp (List.not_mem_nil p))]
    have hf : (fun q : Nat × Nat => getIconCodePure q.1 q.2) =
        (fun q : Nat × Nat => getIconCodeV1 q.1 q.2) :=
      funext fun q => icon_pure_eq_v1 q.1 q.2
    rw [hf]
  · intro seq
    exact runDescSeq_pure seq [] (fun p hp => absurd hp (List.not_mem_nil p))
